import Mathlib

/-!
Verification development for the mathematical-wallpaper generation system.

The repository ships the client-side TypeScript glue (background state,
accent theme, localStorage cache) together with design documents for the
dual-path rendering core (server raster renderer and client canvas
renderer).  The rendering core itself (matrix sampling, block search,
layout planning, color mapping, render-spec serialization) is described by
the specification and the in-repo design documents; those components are
modelled here from the specification text, while the TypeScript modules
(accentTheme.ts, backgroundCache.ts, backgroundState.ts) are embedded from
their source.

Real arithmetic is embedded as rational arithmetic; machine integers of
the wire format are embedded as Lean integers.
-/

/-! ## Data model: hue palette, determinant range, visual parameters -/

/-- The enumerated hue palette.  The nine named color families listed in
the repository documentation (gray, red, orange, yellow, green, blue,
purple, pink, teal). -/
inductive Hue where
  | purple
  | gray
  | red
  | orange
  | yellow
  | green
  | teal
  | blue
  | pink
deriving DecidableEq

/-- Wire name of a hue (the `hue:string` field of the render spec). -/
def hueName : Hue → String
  | .purple => "purple"
  | .gray => "gray"
  | .red => "red"
  | .orange => "orange"
  | .yellow => "yellow"
  | .green => "green"
  | .teal => "teal"
  | .blue => "blue"
  | .pink => "pink"

/-- Parse a wire hue name back into the enumerated palette; `none` for a
string outside the palette. -/
def parseHue (s : String) : Option Hue :=
  if s = "purple" then some .purple
  else if s = "gray" then some .gray
  else if s = "red" then some .red
  else if s = "orange" then some .orange
  else if s = "yellow" then some .yellow
  else if s = "green" then some .green
  else if s = "teal" then some .teal
  else if s = "blue" then some .blue
  else if s = "pink" then some .pink
  else none

/-- Modelled from the spec: each named color has a fixed base hue angle
(degrees).  The concrete angles follow the per-hue constants used by the
repository accent system. -/
def hueBaseDeg : Hue → ℚ
  | .purple => 280
  | .gray => 220
  | .red => 0
  | .orange => 25
  | .yellow => 45
  | .green => 140
  | .teal => 180
  | .blue => 220
  | .pink => 330

/-- Modelled from the spec: each named color has a fixed base saturation
(fraction of 1).  The concrete values follow the per-hue constants used by
the repository accent system. -/
def hueBaseSat : Hue → ℚ
  | .purple => 80 / 100
  | .gray => 20 / 100
  | .red => 70 / 100
  | .orange => 80 / 100
  | .yellow => 85 / 100
  | .green => 55 / 100
  | .teal => 60 / 100
  | .blue => 70 / 100
  | .pink => 75 / 100

/-- DeterminantRange: the observed `[min, max]` determinant range of one
generation pass (§3 of the spec). -/
structure DetRange where
  min : ℚ
  max : ℚ
deriving DecidableEq

/-- VisualParameters: immutable per-request visual configuration (§3 of
the spec, `visual` object of the wire contract §6). -/
structure Visual where
  hue : Hue
  normalizer : ℚ
  low : ℚ
  high : ℚ
  blur_sigma : ℚ
  vignette_strength : ℚ
  feather_strength : ℚ
  use_determinant : Bool
  use_max : Bool
deriving DecidableEq

/-! ## Color Mapper (spec §4.4) -/

/-- Round-half-up integer rounding: the integer nearest to `x`, halves
rounded up. -/
def roundHalfUp (x : ℚ) : ℤ :=
  Int.floor (x + 1 / 2)

/-- Standard HSL to RGB transform.  `hdeg` is the hue angle in degrees,
`s` and `l` are saturation and lightness in `[0, 1]`; each channel is
scaled to `[0, 255]` and rounded half-up. -/
def hslToRgb (hdeg s l : ℚ) : ℤ × ℤ × ℤ :=
  let c := (1 - |2 * l - 1|) * s
  let hp := hdeg / 60
  let hpm := hp - 2 * ((Int.floor (hp / 2) : ℤ) : ℚ)
  let x := c * (1 - |hpm - 1|)
  let m := l - c / 2
  let rgb1 : ℚ × ℚ × ℚ :=
    if hp < 1 then (c, x, 0)
    else if hp < 2 then (x, c, 0)
    else if hp < 3 then (0, c, x)
    else if hp < 4 then (0, x, c)
    else if hp < 5 then (x, 0, c)
    else (c, 0, x)
  (roundHalfUp (255 * (rgb1.1 + m)),
   roundHalfUp (255 * (rgb1.2.1 + m)),
   roundHalfUp (255 * (rgb1.2.2 + m)))

/-- Clamp `x` into `[lo, hi]`, written with `max`/`min`. -/
def clampQ (lo hi x : ℚ) : ℚ :=
  max lo (min x hi)

/-- Modelled from the spec: `determinant_to_color` of the Raster Renderer
(spec §4.4), the color-mapping function of the server-side path, absent
from the checked-in sources (only its design documents are in the
repository).  Steps follow §4.4 verbatim: normalize
`t = clamp((|det| - range.min) / (range.max - range.min), 0, 1)` when
`use_determinant` is set, with the degenerate `range.min = range.max`
case defined as `t = 1/2`; otherwise the configured secondary metric
(an open question of the spec, passed in as the function `secondary`);
then scale `t` by `normalizer` and clamp into `[low, high]`; then map the
brightness and the enumerated hue through the HSL to RGB transform with
round-half-up rounding.  Clamps are written as if-chains here; the client
copy below writes them with `min`/`max`. -/
def determinant_to_color (secondary : ℚ → ℚ) (det : ℚ) (range : DetRange)
    (params : Visual) : ℤ × ℤ × ℤ :=
  let t :=
    if params.use_determinant then
      if range.min = range.max then 1 / 2
      else
        let raw := (|det| - range.min) / (range.max - range.min)
        if raw < 0 then 0 else if 1 < raw then 1 else raw
    else secondary det
  let scaled := params.normalizer * t
  let brightness :=
    if scaled < params.low then params.low
    else if params.high < scaled then params.high
    else scaled
  hslToRgb (hueBaseDeg params.hue) (hueBaseSat params.hue) brightness

/-- Modelled from the spec: the Client Canvas Renderer computes the block
brightness in a dedicated helper (`determinantToBrightness` of the design
document), an independently written copy of steps (1)-(2) of §4.4.  The
absolute value and the `[0, 1]` clamp are written differently from the
raster-side copy; the `[low, high]` clamp follows the shared formula. -/
def determinantToBrightness (secondary : ℚ → ℚ) (det : ℚ) (range : DetRange)
    (params : Visual) : ℚ :=
  let adet := if det < 0 then -det else det
  let t :=
    if params.use_determinant then
      if range.min = range.max then 1 / 2
      else min 1 (max 0 ((adet - range.min) / (range.max - range.min)))
    else secondary det
  let scaled := params.normalizer * t
  if scaled < params.low then params.low
  else if params.high < scaled then params.high
  else scaled

/-- Modelled from the spec: the Client Canvas Renderer maps a brightness
and the enumerated hue to RGB (`applyColorTransform` of the design
document), step (3) of §4.4. -/
def applyColorTransform (brightness : ℚ) (hue : Hue) : ℤ × ℤ × ℤ :=
  hslToRgb (hueBaseDeg hue) (hueBaseSat hue) brightness

/-- Modelled from the spec: the color of one block on the client canvas
path, composing the two client helpers. -/
def clientBlockColor (secondary : ℚ → ℚ) (det : ℚ) (range : DetRange)
    (params : Visual) : ℤ × ℤ × ℤ :=
  applyColorTransform (determinantToBrightness secondary det range params) params.hue

/-! ### Clamp formulation lemmas -/

theorem ifClamp01_eq_minmax (x : ℚ) :
    (if x < 0 then 0 else if 1 < x then (1 : ℚ) else x) = min 1 (max 0 x) := by
  rcases lt_or_le x 0 with h0 | h0
  · rw [if_pos h0, max_eq_left h0.le, min_eq_right]
    norm_num
  · rw [if_neg (not_lt.mpr h0), max_eq_right h0]
    rcases lt_or_le 1 x with h1 | h1
    · rw [if_pos h1, min_eq_left h1.le]
    · rw [if_neg (not_lt.mpr h1), min_eq_right h1]

theorem ifClampLH_eq_minmax (lo hi x : ℚ) (h : lo ≤ hi) :
    (if x < lo then lo else if hi < x then hi else x) = clampQ lo hi x := by
  unfold clampQ
  rcases lt_or_le x lo with h0 | h0
  · rw [if_pos h0, min_eq_left (le_trans h0.le h), max_eq_left h0.le]
  · rw [if_neg (not_lt.mpr h0)]
    rcases lt_or_le hi x with h1 | h1
    · rw [if_pos h1, min_eq_right h1.le, max_eq_right h]
    · rw [if_neg (not_lt.mpr h1), min_eq_left h1, max_eq_right h0]

theorem absQ_eq_ite (x : ℚ) : (if x < 0 then -x else x) = |x| := by
  rcases lt_or_le x 0 with h | h
  · rw [if_pos h, abs_of_neg h]
  · rw [if_neg (not_lt.mpr h), abs_of_nonneg h]

/-- C1: For every determinant, range, visual parameters and configured
secondary metric, the color computed by the Client Canvas Renderer path
(`determinantToBrightness` followed by `applyColorTransform`) is
bit-identical to the color computed by the Raster Renderer's
`determinant_to_color`: the two independently written copies of the §4.4
formula are the same pure function. -/
theorem client_raster_color_parity (secondary : ℚ → ℚ) (det : ℚ)
    (range : DetRange) (params : Visual) :
    clientBlockColor secondary det range params =
      determinant_to_color secondary det range params := by
  unfold clientBlockColor applyColorTransform determinantToBrightness
    determinant_to_color
  rw [absQ_eq_ite]
  rcases hud : params.use_determinant with _ | _
  · simp
  · simp only [if_pos rfl]
    rcases hmm : decide (range.min = range.max) with _ | _
    · have hne : ¬ range.min = range.max := of_decide_eq_false hmm
      simp only [if_neg hne, ifClamp01_eq_minmax]
    · have heq : range.min = range.max := of_decide_eq_true hmm
      simp [heq]

/-- C2: With `use_determinant` set, a non-degenerate range and validated
brightness bounds, `determinant_to_color` decomposes into exactly the
three steps of spec §4.4: normalize
`t = clamp((|det| - range.min) / (range.max - range.min), 0, 1)`, scale
`t` by the normalizer and clamp into `[low, high]`, then map the
brightness and the enumerated hue through the HSL to RGB transform with
round-half-up integer rounding. -/
theorem determinant_to_color_steps (secondary : ℚ → ℚ) (det : ℚ)
    (range : DetRange) (params : Visual)
    (hud : params.use_determinant = true)
    (hlt : range.min < range.max)
    (hlh : params.low ≤ params.high) :
    determinant_to_color secondary det range params =
      hslToRgb (hueBaseDeg params.hue) (hueBaseSat params.hue)
        (clampQ params.low params.high
          (params.normalizer *
            clampQ 0 1 ((|det| - range.min) / (range.max - range.min)))) := by
  have h2 : ∀ x : ℚ,
      (if x < params.low then params.low
        else if params.high < x then params.high else x) =
      clampQ params.low params.high x :=
    fun x => ifClampLH_eq_minmax _ _ x hlh
  have h1 := ifClampLH_eq_minmax 0 1
    ((|det| - range.min) / (range.max - range.min)) (by norm_num)
  unfold determinant_to_color
  rw [hud]
  simp only [if_neg (ne_of_lt hlt), eq_self_iff_true, if_true, h1, h2]

/-- C3: With `use_determinant` set and a degenerate range
(`range.min = range.max`), `determinant_to_color` is defined with
`t = 1/2` and returns the midpoint brightness color for every
determinant: the result equals the hue transform of
`clamp(normalizer * 1/2, low, high)` and is independent of the
determinant, so the division of the normalization step is never
evaluated (the degenerate branch is taken before it). -/
theorem determinant_to_color_degenerate_midpoint (secondary : ℚ → ℚ)
    (det det₂ : ℚ) (range : DetRange) (params : Visual)
    (hud : params.use_determinant = true)
    (heq : range.min = range.max)
    (hlh : params.low ≤ params.high) :
    determinant_to_color secondary det range params =
      hslToRgb (hueBaseDeg params.hue) (hueBaseSat params.hue)
        (clampQ params.low params.high (params.normalizer * (1 / 2)))
    ∧ determinant_to_color secondary det range params =
      determinant_to_color secondary det₂ range params := by
  have h2 : ∀ x : ℚ,
      (if x < params.low then params.low
        else if params.high < x then params.high else x) =
      clampQ params.low params.high x :=
    fun x => ifClampLH_eq_minmax _ _ x hlh
  unfold determinant_to_color
  rw [hud]
  simp only [if_pos heq, eq_self_iff_true, if_true, h2]
  exact ⟨trivial, trivial⟩

/-- Concrete visual parameters used by the witnesses. -/
def demoVisual : Visual :=
  { hue := .blue
    normalizer := 1 / 2
    low := 0
    high := 1
    blur_sigma := 3 / 2
    vignette_strength := 3 / 10
    feather_strength := 1 / 10
    use_determinant := true
    use_max := true }

/-- Witness for C2 at concrete inputs. -/
theorem determinant_to_color_steps_witness :
    (demoVisual.use_determinant = true ∧ (1 : ℚ) < 5 ∧ demoVisual.low ≤ demoVisual.high)
    ∧ determinant_to_color (fun _ => 0) (-3) ⟨1, 5⟩ demoVisual =
      hslToRgb (hueBaseDeg demoVisual.hue) (hueBaseSat demoVisual.hue)
        (clampQ demoVisual.low demoVisual.high
          (demoVisual.normalizer *
            clampQ 0 1 ((|(-3 : ℚ)| - (1 : ℚ)) / ((5 : ℚ) - 1)))) :=
  ⟨⟨rfl, by norm_num, by decide⟩,
   determinant_to_color_steps (fun _ => 0) (-3) ⟨1, 5⟩ demoVisual rfl
     (by norm_num) (by decide)⟩

/-- Witness for C3 at concrete inputs. -/
theorem determinant_to_color_degenerate_midpoint_witness :
    (demoVisual.use_determinant = true ∧ ((2 : ℚ) = 2) ∧ demoVisual.low ≤ demoVisual.high)
    ∧ (determinant_to_color (fun _ => 0) 7 ⟨2, 2⟩ demoVisual =
        hslToRgb (hueBaseDeg demoVisual.hue) (hueBaseSat demoVisual.hue)
          (clampQ demoVisual.low demoVisual.high (demoVisual.normalizer * (1 / 2)))
      ∧ determinant_to_color (fun _ => 0) 7 ⟨2, 2⟩ demoVisual =
        determinant_to_color (fun _ => 0) (-9) ⟨2, 2⟩ demoVisual) :=
  ⟨⟨rfl, rfl, by decide⟩,
   determinant_to_color_degenerate_midpoint (fun _ => 0) 7 (-9) ⟨2, 2⟩
     demoVisual rfl rfl (by decide)⟩

/-! ## Layout Planner (spec §4.3) -/

/-- CanvasConfig: canvas pixel dimensions and the cell size (§3). -/
structure CanvasConfig where
  width : Nat
  height : Nat
  cell_size : Nat
deriving DecidableEq

/-- A pixel rectangle of the planned grid. -/
structure PRect where
  x : Nat
  y : Nat
  w : Nat
  h : Nat
deriving DecidableEq

/-- Horizontal (and vertical) period of the planned grid: one cell plus
one `gap_cells`-wide gap (a gap is `gap_cells` cells wide, i.e.
`gap_cells * cell_size` pixels). -/
def stride (cell gap_cells : Nat) : Nat :=
  cell + gap_cells * cell

/-- Number of grid columns: one per started stride period
(`ceil(width / stride)`). -/
def numCols (c : CanvasConfig) (gap_cells : Nat) : Nat :=
  (c.width + stride c.cell_size gap_cells - 1) / stride c.cell_size gap_cells

/-- Number of grid rows (`ceil(height / stride)`). -/
def numRows (c : CanvasConfig) (gap_cells : Nat) : Nat :=
  (c.height + stride c.cell_size gap_cells - 1) / stride c.cell_size gap_cells

/-- The block rectangle of grid cell `(i, j)`: a `cell_size`-sized square
clipped to the canvas at the right and bottom edges. -/
def blockRect (c : CanvasConfig) (gap_cells i j : Nat) : PRect :=
  ⟨i * stride c.cell_size gap_cells,
   j * stride c.cell_size gap_cells,
   min c.cell_size (c.width - i * stride c.cell_size gap_cells),
   min c.cell_size (c.height - j * stride c.cell_size gap_cells)⟩

/-- Modelled from the spec: `plan_grid` (spec §4.3) deterministically
partitions the canvas into `cell_size`-based rectangles separated by
`gap_cells`-wide gaps, one rectangle per grid cell in row-major order.
The planner itself is absent from the checked-in sources. -/
def plan_grid (c : CanvasConfig) (gap_cells : Nat) : List PRect :=
  (List.range (numRows c gap_cells)).flatMap fun j =>
    (List.range (numCols c gap_cells)).map fun i => blockRect c gap_cells i j

/-- Pixel membership in a rectangle. -/
def inRect (r : PRect) (px py : Nat) : Prop :=
  (r.x ≤ px ∧ px < r.x + r.w) ∧ (r.y ≤ py ∧ py < r.y + r.h)

/-- A canvas pixel lies in a gap band: its offset within the stride
period reaches past the cell, horizontally or vertically. -/
def isGapPixel (c : CanvasConfig) (gap_cells px py : Nat) : Prop :=
  c.cell_size ≤ px % stride c.cell_size gap_cells
  ∨ c.cell_size ≤ py % stride c.cell_size gap_cells

theorem stride_pos (cell gap_cells : Nat) (hc : 1 ≤ cell) :
    0 < stride cell gap_cells := by
  unfold stride
  omega

theorem cell_le_stride (cell gap_cells : Nat) : cell ≤ stride cell gap_cells := by
  unfold stride
  omega

/-- One axis of block membership: a coordinate lies in the clipped cell
band of period `i` exactly when its stride quotient is `i`, its stride
remainder is below the cell size, and it is inside the canvas. -/
theorem axis_mem_iff (cell gap_cells L i x : Nat) (hc : 1 ≤ cell) :
    (i * stride cell gap_cells ≤ x ∧
      x < i * stride cell gap_cells +
        min cell (L - i * stride cell gap_cells)) ↔
    (x / stride cell gap_cells = i ∧
      x % stride cell gap_cells < cell ∧ x < L) := by
  have hs1 : 0 < stride cell gap_cells := stride_pos cell gap_cells hc
  have hcs : cell ≤ stride cell gap_cells := cell_le_stride cell gap_cells
  constructor
  · rintro ⟨h1, h2⟩
    have hmin1 : min cell (L - i * stride cell gap_cells) ≤ cell :=
      Nat.min_le_left _ _
    have hmin2 : min cell (L - i * stride cell gap_cells) ≤
        L - i * stride cell gap_cells := Nat.min_le_right _ _
    have hxL : x < L := by omega
    obtain ⟨d, hd, hdc⟩ : ∃ d, x = i * stride cell gap_cells + d ∧ d < cell :=
      ⟨x - i * stride cell gap_cells, by omega, by omega⟩
    subst hd
    have hds : d < stride cell gap_cells := lt_of_lt_of_le hdc hcs
    refine ⟨?_, ?_, hxL⟩
    · rw [Nat.mul_comm i, Nat.mul_add_div hs1, Nat.div_eq_of_lt hds]
      omega
    · rw [Nat.mul_comm i, Nat.mul_add_mod, Nat.mod_eq_of_lt hds]
      exact hdc
  · rintro ⟨hq, hr, hxL⟩
    have hdm := Nat.div_add_mod x (stride cell gap_cells)
    rw [hq] at hdm
    have hle : i * stride cell gap_cells ≤ x := by
      rw [Nat.mul_comm]
      omega
    refine ⟨hle, ?_⟩
    have hlt1 : x - i * stride cell gap_cells < cell := by
      rw [Nat.mul_comm]
      omega
    have hlt2 : x - i * stride cell gap_cells <
        L - i * stride cell gap_cells := by omega
    omega

/-- The stride quotient of an in-canvas coordinate is a valid grid
index. -/
theorem div_lt_ceil (s L x : Nat) (hs : 0 < s) (hx : x < L) :
    x / s < (L + s - 1) / s := by
  have h1 : x / s ≤ (L - 1) / s := Nat.div_le_div_right (by omega)
  have h2 : L + s - 1 = (L - 1) + s := by omega
  rw [h2, Nat.add_div_right _ hs]
  omega

/-- Membership in the planned grid list. -/
theorem mem_plan_grid_iff (c : CanvasConfig) (gap_cells : Nat) (r : PRect) :
    r ∈ plan_grid c gap_cells ↔
      ∃ j, j < numRows c gap_cells ∧ ∃ i, i < numCols c gap_cells ∧
        r = blockRect c gap_cells i j := by
  simp only [plan_grid, List.mem_flatMap, List.mem_map, List.mem_range]
  constructor
  · rintro ⟨j, hj, i, hi, hr⟩
    exact ⟨j, hj, i, hi, hr.symm⟩
  · rintro ⟨j, hj, i, hi, hr⟩
    exact ⟨j, hj, i, hi, hr.symm⟩

/-- Pixel membership in the block of cell `(i, j)`, for valid indices,
characterized by stride arithmetic. -/
theorem inRect_blockRect_iff (c : CanvasConfig) (gap_cells i j px py : Nat)
    (hc : 1 ≤ c.cell_size) :
    inRect (blockRect c gap_cells i j) px py ↔
      ((px / stride c.cell_size gap_cells = i ∧
        px % stride c.cell_size gap_cells < c.cell_size ∧ px < c.width) ∧
       (py / stride c.cell_size gap_cells = j ∧
        py % stride c.cell_size gap_cells < c.cell_size ∧ py < c.height)) := by
  unfold inRect blockRect
  exact and_congr (axis_mem_iff _ _ _ _ _ hc) (axis_mem_iff _ _ _ _ _ hc)

/-- C5: For every CanvasConfig (with a positive cell size) and every
`gap_cells`, the deterministically planned grid satisfies: (1) block
rectangles are pairwise disjoint — two planned blocks sharing a pixel are
the same block; (2) no planned block occupies a gap pixel, and every
planned block lies inside the canvas; (3) every canvas pixel is either a
gap pixel or covered by a planned block — so the union of the block
rectangles plus the gaps exactly equals the canvas area.  (`plan_grid` is
a pure Lean function of the CanvasConfig and `gap_cells`, so determinism
is definitional.) -/
theorem plan_grid_partitions_canvas (c : CanvasConfig) (gap_cells : Nat)
    (hc : 1 ≤ c.cell_size) :
    (∀ r₁ ∈ plan_grid c gap_cells, ∀ r₂ ∈ plan_grid c gap_cells,
      ∀ px py, inRect r₁ px py → inRect r₂ px py → r₁ = r₂)
    ∧ (∀ r ∈ plan_grid c gap_cells, ∀ px py, inRect r px py →
        ¬ isGapPixel c gap_cells px py ∧ px < c.width ∧ py < c.height)
    ∧ (∀ px py, px < c.width → py < c.height →
        isGapPixel c gap_cells px py ∨
          ∃ r ∈ plan_grid c gap_cells, inRect r px py) := by
  refine ⟨?_, ?_, ?_⟩
  · intro r₁ hr₁ r₂ hr₂ px py hin₁ hin₂
    obtain ⟨j₁, hj₁, i₁, hi₁, he₁⟩ := (mem_plan_grid_iff c gap_cells r₁).mp hr₁
    obtain ⟨j₂, hj₂, i₂, hi₂, he₂⟩ := (mem_plan_grid_iff c gap_cells r₂).mp hr₂
    subst he₁
    subst he₂
    obtain ⟨⟨hx₁, _, _⟩, ⟨hy₁, _, _⟩⟩ :=
      (inRect_blockRect_iff c gap_cells i₁ j₁ px py hc).mp hin₁
    obtain ⟨⟨hx₂, _, _⟩, ⟨hy₂, _, _⟩⟩ :=
      (inRect_blockRect_iff c gap_cells i₂ j₂ px py hc).mp hin₂
    rw [← hx₁, hx₂, ← hy₁, hy₂]
  · intro r hr px py hin
    obtain ⟨j, hj, i, hi, he⟩ := (mem_plan_grid_iff c gap_cells r).mp hr
    subst he
    obtain ⟨⟨_, hxm, hxw⟩, ⟨_, hym, hyh⟩⟩ :=
      (inRect_blockRect_iff c gap_cells i j px py hc).mp hin
    refine ⟨?_, hxw, hyh⟩
    intro hgap
    rcases hgap with hgx | hgy
    · omega
    · omega
  · intro px py hpx hpy
    by_cases hgx : c.cell_size ≤ px % stride c.cell_size gap_cells
    · exact Or.inl (Or.inl hgx)
    · by_cases hgy : c.cell_size ≤ py % stride c.cell_size gap_cells
      · exact Or.inl (Or.inr hgy)
      · refine Or.inr ?_
        have hs1 : 0 < stride c.cell_size gap_cells :=
          stride_pos c.cell_size gap_cells hc
        refine ⟨blockRect c gap_cells
          (px / stride c.cell_size gap_cells)
          (py / stride c.cell_size gap_cells), ?_, ?_⟩
        · refine (mem_plan_grid_iff c gap_cells _).mpr
            ⟨py / stride c.cell_size gap_cells, ?_,
             px / stride c.cell_size gap_cells, ?_, rfl⟩
          · exact div_lt_ceil _ _ _ hs1 hpy
          · exact div_lt_ceil _ _ _ hs1 hpx
        · exact (inRect_blockRect_iff c gap_cells _ _ px py hc).mpr
            ⟨⟨rfl, by omega, hpx⟩, ⟨rfl, by omega, hpy⟩⟩

/-- Witness for C5 at the boundary configuration of spec §8: a 40 by 40
canvas with cell size 20 and no gaps. -/
theorem plan_grid_partitions_canvas_witness :
    (1 ≤ (⟨40, 40, 20⟩ : CanvasConfig).cell_size)
    ∧ ((∀ r₁ ∈ plan_grid ⟨40, 40, 20⟩ 0, ∀ r₂ ∈ plan_grid ⟨40, 40, 20⟩ 0,
        ∀ px py, inRect r₁ px py → inRect r₂ px py → r₁ = r₂)
      ∧ (∀ r ∈ plan_grid ⟨40, 40, 20⟩ 0, ∀ px py, inRect r px py →
          ¬ isGapPixel ⟨40, 40, 20⟩ 0 px py ∧ px < 40 ∧ py < 40)
      ∧ (∀ px py, px < 40 → py < 40 →
          isGapPixel ⟨40, 40, 20⟩ 0 px py ∨
            ∃ r ∈ plan_grid ⟨40, 40, 20⟩ 0, inRect r px py)) :=
  ⟨by decide, plan_grid_partitions_canvas ⟨40, 40, 20⟩ 0 (by decide)⟩

/-! ## Matrix Sampler, Determinant Evaluator, Block Search Engine
(spec §4.1, §4.2) -/

/-- Modelled from the spec: one matrix entry drawn from the injected
request-scoped RNG stream `u` (spec §9 directs modelling the search as a
pure function of the RNG stream position); the stream value at a position
is scaled from `[0, 1]` into `[low, high]`. -/
def sampleEntry (u : Nat → ℚ) (low high : ℚ) (pos : Nat) : ℚ :=
  low + (high - low) * u pos

/-- Modelled from the spec: an `n` by `n` matrix drawn at stream position
`pos`, rows as lists, entries consumed row-major. -/
def sampleMatrix (u : Nat → ℚ) (n : Nat) (low high : ℚ) (pos : Nat) :
    List (List ℚ) :=
  (List.range n).map fun i =>
    (List.range n).map fun j => sampleEntry u low high (pos + i * n + j)

/-- Modelled from the spec: the Determinant Evaluator, by cofactor
expansion along the first row (spec §4.1). -/
def determinant : List (List ℚ) → ℚ
  | [] => 1
  | r :: rest =>
    ((List.range r.length).map fun j =>
      (-1 : ℚ) ^ j * r.getD j 0 *
        determinant (rest.map fun row => row.eraseIdx j)).sum
termination_by m => m.length
decreasing_by simp

/-- Modelled from the spec: `sample_and_score` draws one matrix at the
given stream position together with its determinant (spec §4.1); the
parameter guards live in `search_block` below. -/
def sampleAndScoreRaw (u : Nat → ℚ) (n : Nat) (low high : ℚ) (pos : Nat) :
    List (List ℚ) × ℚ :=
  let m := sampleMatrix u n low high pos
  (m, determinant m)

/-- Search objective of the Block Search Engine (spec §4.2), selected by
`use_max`. -/
inductive SearchObjective where
  | MAXIMIZE_ABS_DETERMINANT
  | SAMPLE_ONCE
deriving DecidableEq

/-- Error taxonomy of the sampling and search components (spec §7). -/
inductive SearchErr where
  | InvalidRange
  | InvalidParameter
deriving DecidableEq

/-- Best-of-the-first `m + 1` samples: keeps the earlier sample unless a
later one has strictly greater absolute determinant, so ties go to the
first-found sample. -/
def bestUpTo (f : Nat → List (List ℚ) × ℚ) : Nat → List (List ℚ) × ℚ
  | 0 => f 0
  | m + 1 =>
    let b := bestUpTo f m
    let c := f (m + 1)
    if |b.2| < |c.2| then c else b

/-- Modelled from the spec: `search_block` (spec §4.2).  Rejects
`low ≥ high` with `InvalidRange` and invalid `n`/`budget` with
`InvalidParameter`; `MAXIMIZE_ABS_DETERMINANT` draws `budget` independent
samples (each advancing the stream by `n * n` entries) and keeps the one
with greatest absolute determinant, ties to the first found;
`SAMPLE_ONCE` draws exactly one sample. -/
def search_block (u : Nat → ℚ) (n : Nat) (low high : ℚ)
    (objective : SearchObjective) (budget pos : Nat) :
    Except SearchErr (List (List ℚ) × ℚ) :=
  if low < high then
    if 2 ≤ n ∧ 1 ≤ budget then
      match objective with
      | .SAMPLE_ONCE => .ok (sampleAndScoreRaw u n low high pos)
      | .MAXIMIZE_ABS_DETERMINANT =>
        .ok (bestUpTo
          (fun k => sampleAndScoreRaw u n low high (pos + k * (n * n)))
          (budget - 1))
    else .error .InvalidParameter
  else .error .InvalidRange

/-- Modelled from the spec: the DeterminantRange of a pass is folded up
from the block determinants; `none` for an empty pass. -/
def computeRange : List ℚ → Option DetRange
  | [] => none
  | d :: ds =>
    some (ds.foldl (fun rg e => ⟨min rg.min e, max rg.max e⟩) ⟨d, d⟩)

theorem bestUpTo_argmax (f : Nat → List (List ℚ) × ℚ) (m : Nat) :
    ∃ i, i ≤ m ∧ bestUpTo f m = f i ∧
      (∀ j, j ≤ m → |(f j).2| ≤ |(f i).2|) ∧
      (∀ j, j < i → |(f j).2| < |(f i).2|) := by
  induction m with
  | zero =>
    refine ⟨0, le_refl 0, rfl, ?_, ?_⟩
    · intro j hj
      rw [Nat.le_zero.mp hj]
    · intro j hj
      omega
  | succ m ih =>
    obtain ⟨i, him, hbe, hmax, hfirst⟩ := ih
    by_cases h : |(bestUpTo f m).2| < |(f (m + 1)).2|
    · refine ⟨m + 1, le_refl _, ?_, ?_, ?_⟩
      · simp only [bestUpTo, if_pos h]
      · intro j hj
        rcases Nat.lt_succ_iff_lt_or_eq.mp (Nat.lt_succ_of_le hj) with hj' | hj'
        · exact le_of_lt (lt_of_le_of_lt (hmax j (Nat.lt_succ_iff.mp hj'))
            (by rw [← hbe]; exact h))
        · rw [hj']
      · intro j hj
        exact lt_of_le_of_lt (hmax j (Nat.lt_succ_iff.mp hj))
          (by rw [← hbe]; exact h)
    · refine ⟨i, le_trans him (Nat.le_succ m), ?_, ?_, hfirst⟩
      · simp only [bestUpTo, if_neg h]
        exact hbe
      · intro j hj
        rcases Nat.lt_succ_iff_lt_or_eq.mp (Nat.lt_succ_of_le hj) with hj' | hj'
        · exact hmax j (Nat.lt_succ_iff.mp hj')
        · rw [hj', ← hbe]
          exact not_lt.mp h

theorem computeRange_foldl (ds : List ℚ) (rg₀ : DetRange) :
    let rg := ds.foldl (fun rg e => ⟨min rg.min e, max rg.max e⟩) rg₀
    (rg.min = rg₀.min ∨ rg.min ∈ ds) ∧ (rg.max = rg₀.max ∨ rg.max ∈ ds) ∧
    rg.min ≤ rg₀.min ∧ rg₀.max ≤ rg.max ∧
    (∀ d ∈ ds, rg.min ≤ d ∧ d ≤ rg.max) := by
  induction ds generalizing rg₀ with
  | nil =>
    exact ⟨Or.inl rfl, Or.inl rfl, le_refl _, le_refl _, by intro d hd; cases hd⟩
  | cons e ds ih =>
    obtain ⟨hmina, hmaxa, hminle, hmaxle, hbound⟩ :=
      ih ⟨min rg₀.min e, max rg₀.max e⟩
    simp only [List.foldl_cons]
    refine ⟨?_, ?_, ?_, ?_, ?_⟩
    · rcases hmina with h | h
      · rcases min_choice rg₀.min e with hm | hm
        · exact Or.inl (by rw [h]; exact hm)
        · exact Or.inr (by rw [h, hm]; exact List.mem_cons_self e ds)
      · exact Or.inr (List.mem_cons_of_mem e h)
    · rcases hmaxa with h | h
      · rcases max_choice rg₀.max e with hm | hm
        · exact Or.inl (by rw [h]; exact hm)
        · exact Or.inr (by rw [h, hm]; exact List.mem_cons_self e ds)
      · exact Or.inr (List.mem_cons_of_mem e h)
    · exact le_trans hminle (min_le_left _ _)
    · exact le_trans (le_max_left _ _) hmaxle
    · intro d hd
      rcases List.mem_cons.mp hd with hd' | hd'
      · subst hd'
        exact ⟨le_trans hminle (min_le_right _ _),
               le_trans (le_max_right _ _) hmaxle⟩
      · exact hbound d hd'

theorem computeRange_true_extrema (dets : List ℚ) (rg : DetRange)
    (h : computeRange dets = some rg) :
    (∀ d ∈ dets, rg.min ≤ d ∧ d ≤ rg.max) ∧ rg.min ∈ dets ∧ rg.max ∈ dets := by
  cases dets with
  | nil => cases h
  | cons d ds =>
    simp only [computeRange, Option.some.injEq] at h
    obtain ⟨hmina, hmaxa, hminle, hmaxle, hbound⟩ := computeRange_foldl ds ⟨d, d⟩
    subst h
    refine ⟨?_, ?_, ?_⟩
    · intro e he
      rcases List.mem_cons.mp he with he' | he'
      · subst he'
        exact ⟨hminle, hmaxle⟩
      · exact hbound e he'
    · rcases hmina with h' | h'
      · rw [h']
        exact List.mem_cons_self d ds
      · exact List.mem_cons_of_mem d h'
    · rcases hmaxa with h' | h'
      · rw [h']
        exact List.mem_cons_self d ds
      · exact List.mem_cons_of_mem d h'

/-- C4: For valid parameters (`n ≥ 2`, `low < high`, `budget ≥ 1`):
with objective `MAXIMIZE_ABS_DETERMINANT`, `search_block` succeeds and
returns one of exactly the `budget` samples drawn from the stream, whose
absolute determinant is greatest among all `budget` samples, every
earlier sample having a strictly smaller absolute determinant (ties go to
the first found); with objective `SAMPLE_ONCE` it succeeds with exactly
the one sample drawn at the current stream position; and the
DeterminantRange folded from any nonempty list of block determinants is
the true extrema: it bounds every determinant and both bounds are
attained. -/
theorem search_block_correct (u : Nat → ℚ) (n : Nat) (low high : ℚ)
    (budget pos : Nat) (hn : 2 ≤ n) (hlh : low < high) (hb : 1 ≤ budget) :
    (∃ i, i < budget ∧
      search_block u n low high .MAXIMIZE_ABS_DETERMINANT budget pos =
        .ok (sampleAndScoreRaw u n low high (pos + i * (n * n))) ∧
      (∀ j, j < budget →
        |(sampleAndScoreRaw u n low high (pos + j * (n * n))).2| ≤
          |(sampleAndScoreRaw u n low high (pos + i * (n * n))).2|) ∧
      (∀ j, j < i →
        |(sampleAndScoreRaw u n low high (pos + j * (n * n))).2| <
          |(sampleAndScoreRaw u n low high (pos + i * (n * n))).2|))
    ∧ search_block u n low high .SAMPLE_ONCE budget pos =
        .ok (sampleAndScoreRaw u n low high pos)
    ∧ (∀ (dets : List ℚ) (rg : DetRange), computeRange dets = some rg →
        (∀ d ∈ dets, rg.min ≤ d ∧ d ≤ rg.max) ∧
        rg.min ∈ dets ∧ rg.max ∈ dets) := by
  refine ⟨?_, ?_, fun dets rg h => computeRange_true_extrema dets rg h⟩
  · obtain ⟨i, him, hbe, hmax, hfirst⟩ := bestUpTo_argmax
      (fun k => sampleAndScoreRaw u n low high (pos + k * (n * n)))
      (budget - 1)
    refine ⟨i, by omega, ?_, ?_, ?_⟩
    · unfold search_block
      rw [if_pos hlh, if_pos ⟨hn, hb⟩]
      exact congrArg Except.ok hbe
    · intro j hj
      exact hmax j (by omega)
    · intro j hj
      exact hfirst j hj
  · unfold search_block
    rw [if_pos hlh, if_pos ⟨hn, hb⟩]

/-- A simple concrete RNG stream for the witness. -/
def demoStream : Nat → ℚ :=
  fun k => (k % 7 : ℚ) / 10

/-- Witness for C4 at concrete valid parameters (n = 2, budget = 3). -/
theorem search_block_correct_witness :
    ((2 : Nat) ≤ 2 ∧ (0 : ℚ) < 1 ∧ (1 : Nat) ≤ 3)
    ∧ ((∃ i, i < 3 ∧
        search_block demoStream 2 0 1 .MAXIMIZE_ABS_DETERMINANT 3 0 =
          .ok (sampleAndScoreRaw demoStream 2 0 1 (0 + i * (2 * 2))) ∧
        (∀ j, j < 3 →
          |(sampleAndScoreRaw demoStream 2 0 1 (0 + j * (2 * 2))).2| ≤
            |(sampleAndScoreRaw demoStream 2 0 1 (0 + i * (2 * 2))).2|) ∧
        (∀ j, j < i →
          |(sampleAndScoreRaw demoStream 2 0 1 (0 + j * (2 * 2))).2| <
            |(sampleAndScoreRaw demoStream 2 0 1 (0 + i * (2 * 2))).2|))
      ∧ search_block demoStream 2 0 1 .SAMPLE_ONCE 3 0 =
          .ok (sampleAndScoreRaw demoStream 2 0 1 0)
      ∧ (∀ (dets : List ℚ) (rg : DetRange), computeRange dets = some rg →
          (∀ d ∈ dets, rg.min ≤ d ∧ d ≤ rg.max) ∧
          rg.min ∈ dets ∧ rg.max ∈ dets)) :=
  ⟨⟨le_refl 2, by norm_num, by omega⟩,
   search_block_correct demoStream 2 0 1 3 0 (le_refl 2) (by norm_num) (by omega)⟩

/-! ## Render Spec wire contract (spec §4.5, §4.7, §6) -/

/-- Block: one grid cell of a generation pass, with pixel rectangle,
matrix, determinant and matrix dimension (§3 of the spec, `blocks` entry
of the wire contract §6; integers of the wire are embedded as `ℤ`). -/
structure Block where
  x : ℤ
  y : ℤ
  width : ℤ
  height : ℤ
  matrix : List (List ℚ)
  determinant : ℚ
  size : ℤ
deriving DecidableEq

/-- Serializable document values of the wire contract (a small JSON
value model: numbers, strings, booleans, arrays, objects). -/
inductive Jval where
  | jnum (q : ℚ)
  | jstr (s : String)
  | jbool (b : Bool)
  | jarr (xs : List Jval)
  | jobj (fields : List (String × Jval))

/-- Error taxonomy of spec ingestion (spec §7): a malformed or
out-of-bounds document part, or a hue outside the enumerated palette. -/
inductive SpecErr where
  | SpecIntegrityError
  | UnsupportedHue
deriving DecidableEq

/-- Modelled from the spec: the Render Spec Builder serializes the
CanvasConfig per the wire contract §6. -/
def serializeCanvas (c : CanvasConfig) : Jval :=
  .jobj [("width", .jnum (c.width : ℚ)),
         ("height", .jnum (c.height : ℚ)),
         ("cell_size", .jnum (c.cell_size : ℚ))]

/-- Modelled from the spec: the Render Spec Builder serializes the
VisualParameters per the wire contract §6. -/
def serializeVisual (v : Visual) : Jval :=
  .jobj [("hue", .jstr (hueName v.hue)),
         ("normalizer", .jnum v.normalizer),
         ("low", .jnum v.low),
         ("high", .jnum v.high),
         ("blur_sigma", .jnum v.blur_sigma),
         ("vignette_strength", .jnum v.vignette_strength),
         ("feather_strength", .jnum v.feather_strength),
         ("use_determinant", .jbool v.use_determinant),
         ("use_max", .jbool v.use_max)]

/-- Modelled from the spec: the Render Spec Builder serializes the
DeterminantRange per the wire contract §6. -/
def serializeRange (r : DetRange) : Jval :=
  .jobj [("min", .jnum r.min), ("max", .jnum r.max)]

/-- Modelled from the spec: the Render Spec Builder serializes one Block
per the wire contract §6. -/
def serializeBlock (b : Block) : Jval :=
  .jobj [("x", .jnum (b.x : ℚ)),
         ("y", .jnum (b.y : ℚ)),
         ("width", .jnum (b.width : ℚ)),
         ("height", .jnum (b.height : ℚ)),
         ("matrix", .jarr (b.matrix.map fun row => .jarr (row.map Jval.jnum))),
         ("determinant", .jnum b.determinant),
         ("size", .jnum (b.size : ℚ))]

/-- Modelled from the spec: the Render Spec Builder assembles the full
RenderSpec document (wire contract §6). -/
def serializeSpec (c : CanvasConfig) (v : Visual) (r : DetRange)
    (blocks : List Block) : Jval :=
  .jobj [("canvas", serializeCanvas c),
         ("visual", serializeVisual v),
         ("determinant_range", serializeRange r),
         ("blocks", .jarr (blocks.map serializeBlock))]

/-- Object field access during ingestion; a missing field is a malformed
document. -/
def getField (fields : List (String × Jval)) (k : String) :
    Except SpecErr Jval :=
  match fields.lookup k with
  | some v => .ok v
  | none => .error .SpecIntegrityError

/-- Expect an object. -/
def asObj : Jval → Except SpecErr (List (String × Jval))
  | .jobj fs => .ok fs
  | _ => .error .SpecIntegrityError

/-- Expect an array. -/
def asArr : Jval → Except SpecErr (List Jval)
  | .jarr xs => .ok xs
  | _ => .error .SpecIntegrityError

/-- Expect a number. -/
def asNum : Jval → Except SpecErr ℚ
  | .jnum q => .ok q
  | _ => .error .SpecIntegrityError

/-- Expect a string. -/
def asStr : Jval → Except SpecErr String
  | .jstr s => .ok s
  | _ => .error .SpecIntegrityError

/-- Expect a boolean. -/
def asBool : Jval → Except SpecErr Bool
  | .jbool b => .ok b
  | _ => .error .SpecIntegrityError

/-- Expect an integral number (the wire `int` type). -/
def asInt (j : Jval) : Except SpecErr ℤ := do
  let q ← asNum j
  if q.den = 1 then pure q.num else throw .SpecIntegrityError

/-- Expect a nonnegative integral number. -/
def asNat (j : Jval) : Except SpecErr Nat := do
  let i ← asInt j
  if 0 ≤ i then pure i.toNat else throw .SpecIntegrityError

/-- Modelled from the spec: PARSE stage for the `canvas` object. -/
def parseCanvas (j : Jval) : Except SpecErr CanvasConfig := do
  let fs ← asObj j
  let w ← asNat (← getField fs "width")
  let h ← asNat (← getField fs "height")
  let cs ← asNat (← getField fs "cell_size")
  pure ⟨w, h, cs⟩

/-- Modelled from the spec: PARSE stage for the `visual` object; a hue
outside the enumerated palette fails with `UnsupportedHue`. -/
def parseVisual (j : Jval) : Except SpecErr Visual := do
  let fs ← asObj j
  let hs ← asStr (← getField fs "hue")
  match parseHue hs with
  | none => throw .UnsupportedHue
  | some hue => do
    let nz ← asNum (← getField fs "normalizer")
    let lo ← asNum (← getField fs "low")
    let hi ← asNum (← getField fs "high")
    let bs ← asNum (← getField fs "blur_sigma")
    let vs ← asNum (← getField fs "vignette_strength")
    let fe ← asNum (← getField fs "feather_strength")
    let ud ← asBool (← getField fs "use_determinant")
    let um ← asBool (← getField fs "use_max")
    pure ⟨hue, nz, lo, hi, bs, vs, fe, ud, um⟩

/-- Modelled from the spec: PARSE stage for the `determinant_range`
object. -/
def parseRange (j : Jval) : Except SpecErr DetRange := do
  let fs ← asObj j
  let mn ← asNum (← getField fs "min")
  let mx ← asNum (← getField fs "max")
  pure ⟨mn, mx⟩

/-- Modelled from the spec: PARSE stage for one matrix row. -/
def parseRow (j : Jval) : Except SpecErr (List ℚ) := do
  let xs ← asArr j
  xs.mapM asNum

/-- Modelled from the spec: PARSE stage for one block object. -/
def parseBlock (j : Jval) : Except SpecErr Block := do
  let fs ← asObj j
  let x ← asInt (← getField fs "x")
  let y ← asInt (← getField fs "y")
  let w ← asInt (← getField fs "width")
  let h ← asInt (← getField fs "height")
  let mrows ← asArr (← getField fs "matrix")
  let matrix ← mrows.mapM parseRow
  let det ← asNum (← getField fs "determinant")
  let size ← asInt (← getField fs "size")
  pure ⟨x, y, w, h, matrix, det, size⟩

/-- Modelled from the spec: PARSE stage of the Client Canvas Renderer
(spec §4.7) for a full RenderSpec document. -/
def parseSpec (j : Jval) :
    Except SpecErr (CanvasConfig × Visual × DetRange × List Block) := do
  let fs ← asObj j
  let c ← parseCanvas (← getField fs "canvas")
  let v ← parseVisual (← getField fs "visual")
  let r ← parseRange (← getField fs "determinant_range")
  let barr ← asArr (← getField fs "blocks")
  let blocks ← barr.mapM parseBlock
  pure (c, v, r, blocks)

/-- A block rectangle lies within `[0, width) × [0, height)` of the
canvas (integrity rule of spec §4.5). -/
def blockInBounds (c : CanvasConfig) (b : Block) : Bool :=
  decide (0 ≤ b.x) && decide (0 ≤ b.y) &&
  decide (b.x + b.width ≤ (c.width : ℤ)) &&
  decide (b.y + b.height ≤ (c.height : ℤ))

/-- Modelled from the spec: VALIDATE stage of the Client Canvas Renderer
(spec §4.7), re-applying the §4.5 integrity rules to the ingested parts:
every block rectangle within the canvas, and the declared
`determinant_range` equal to the recomputed true extrema over the blocks
(not assumed). -/
def validateSpec (c : CanvasConfig) (v : Visual) (r : DetRange)
    (blocks : List Block) :
    Except SpecErr (CanvasConfig × Visual × DetRange × List Block) :=
  if blocks.all (blockInBounds c) then
    match computeRange (blocks.map Block.determinant) with
    | some rg => if rg = r then .ok (c, v, r, blocks)
                 else .error .SpecIntegrityError
    | none => .error .SpecIntegrityError
  else .error .SpecIntegrityError

/-- Modelled from the spec: PARSE followed by VALIDATE on an ingested
document. -/
def parseAndValidate (j : Jval) :
    Except SpecErr (CanvasConfig × Visual × DetRange × List Block) := do
  let (c, v, r, blocks) ← parseSpec j
  validateSpec c v r blocks

theorem parseHue_hueName (h : Hue) : parseHue (hueName h) = some h := by
  cases h <;> rfl

theorem parseVisual_serializeVisual (v : Visual) :
    parseVisual (serializeVisual v) = .ok v := by
  obtain ⟨hue, nz, lo, hi, bs, vs, fe, ud, um⟩ := v
  cases hue <;> rfl

theorem mapM_asNum_jnum (row : List ℚ) :
    (row.map Jval.jnum).mapM asNum = .ok row := by
  induction row with
  | nil => rfl
  | cons q qs ih =>
    simp only [List.map_cons, List.mapM_cons, ih, asNum]
    rfl

theorem parseRow_serializeRow (row : List ℚ) :
    parseRow (.jarr (row.map Jval.jnum)) = .ok row :=
  mapM_asNum_jnum row

theorem mapM_parseRow_serialize (m : List (List ℚ)) :
    (m.map fun row => Jval.jarr (row.map Jval.jnum)).mapM parseRow =
      .ok m := by
  induction m with
  | nil => rfl
  | cons row rows ih =>
    simp only [List.map_cons, List.mapM_cons, parseRow_serializeRow, ih]
    rfl

theorem parseBlock_serializeBlock (b : Block) :
    parseBlock (serializeBlock b) = .ok b := by
  have h1 : parseBlock (serializeBlock b) =
      ((b.matrix.map fun row => Jval.jarr (row.map Jval.jnum)).mapM
        parseRow) >>= (fun m =>
          Except.ok ⟨b.x, b.y, b.width, b.height, m, b.determinant, b.size⟩) :=
    rfl
  rw [h1, mapM_parseRow_serialize]
  rfl

theorem mapM_parseBlock_serialize (blocks : List Block) :
    (blocks.map serializeBlock).mapM parseBlock = .ok blocks := by
  induction blocks with
  | nil => rfl
  | cons b bs ih =>
    simp only [List.map_cons, List.mapM_cons, parseBlock_serializeBlock, ih]
    rfl

theorem parseSpec_serializeSpec (c : CanvasConfig) (v : Visual)
    (r : DetRange) (blocks : List Block) :
    parseSpec (serializeSpec c v r blocks) = .ok (c, v, r, blocks) := by
  have h1 : parseSpec (serializeSpec c v r blocks) =
      parseVisual (serializeVisual v) >>= (fun vv =>
        ((blocks.map serializeBlock).mapM parseBlock) >>= fun bs =>
          Except.ok (c, vv, r, bs)) := rfl
  rw [h1]
  simp only [parseVisual_serializeVisual, mapM_parseBlock_serialize]
  rfl

/-- C6: Serializing a generation pass (whose blocks lie inside the canvas
and whose declared range is the true extrema over the block determinants,
as the Render Spec Builder guarantees) and then running the Client Canvas
Renderer's PARSE and VALIDATE stages on the document yields Blocks,
a DeterminantRange and VisualParameters structurally equal to the
originals: the round-trip identity of the wire contract. -/
theorem renderSpec_roundtrip (c : CanvasConfig) (v : Visual) (r : DetRange)
    (blocks : List Block)
    (hb : blocks.all (blockInBounds c) = true)
    (hr : computeRange (blocks.map Block.determinant) = some r) :
    parseAndValidate (serializeSpec c v r blocks) = .ok (c, v, r, blocks) := by
  have h1 : parseAndValidate (serializeSpec c v r blocks) =
      parseSpec (serializeSpec c v r blocks) >>= fun p =>
        validateSpec p.1 p.2.1 p.2.2.1 p.2.2.2 := rfl
  rw [h1, parseSpec_serializeSpec]
  show validateSpec c v r blocks = .ok (c, v, r, blocks)
  unfold validateSpec
  rw [hb, if_pos rfl, hr]
  show (if r = r then
      (Except.ok (c, v, r, blocks) :
        Except SpecErr (CanvasConfig × Visual × DetRange × List Block))
    else Except.error SpecErr.SpecIntegrityError) = Except.ok (c, v, r, blocks)
  rw [if_pos rfl]

/-- A concrete one-block pass for the witness. -/
def demoBlock : Block :=
  { x := 0
    y := 0
    width := 20
    height := 20
    matrix := [[1, 2], [3, 4]]
    determinant := -2
    size := 2 }

/-- Witness for C6 at a concrete one-block pass. -/
theorem renderSpec_roundtrip_witness :
    ([demoBlock].all (blockInBounds ⟨40, 40, 20⟩) = true
      ∧ computeRange ([demoBlock].map Block.determinant) =
          some ⟨-2, -2⟩)
    ∧ parseAndValidate
        (serializeSpec ⟨40, 40, 20⟩ demoVisual ⟨-2, -2⟩ [demoBlock]) =
      .ok (⟨40, 40, 20⟩, demoVisual, ⟨-2, -2⟩, [demoBlock]) :=
  ⟨⟨by decide, by decide⟩,
   renderSpec_roundtrip ⟨40, 40, 20⟩ demoVisual ⟨-2, -2⟩ [demoBlock]
     (by decide) (by decide)⟩

/-! ## Accent theme derivation (src/src/scripts/accentTheme.ts) -/

/-- An HSL triple of the accent palette table (integer components, as in
the source). -/
structure HslV where
  h : ℤ
  s : ℤ
  l : ℤ
deriving DecidableEq

/-- One palette of the accent hue table: light, regular and dark shades
plus the complementary gradient color. -/
structure AccentPalette where
  light : HslV
  regular : HslV
  dark : HslV
  complementary : String
deriving DecidableEq

/-- The purple palette (the original site theme, and the fallback). -/
def purplePalette : AccentPalette :=
  ⟨⟨280, 89, 67⟩, ⟨280, 80, 47⟩, ⟨270, 100, 17⟩, "#ca7879"⟩

/-- `HUE_COLOR_MAP` of accentTheme.ts: the hue-to-HSL palette table with
its nine named entries, in source order. -/
def HUE_COLOR_MAP : List (String × AccentPalette) :=
  [("purple", purplePalette),
   ("gray", ⟨⟨220, 15, 65⟩, ⟨220, 20, 45⟩, ⟨220, 25, 25⟩, "#8a9199"⟩),
   ("red", ⟨⟨0, 75, 65⟩, ⟨0, 70, 45⟩, ⟨0, 75, 25⟩, "#e87c7c"⟩),
   ("orange", ⟨⟨25, 85, 65⟩, ⟨25, 80, 45⟩, ⟨25, 85, 25⟩, "#f0a868"⟩),
   ("yellow", ⟨⟨45, 90, 65⟩, ⟨45, 85, 50⟩, ⟨45, 90, 30⟩, "#f5d77a"⟩),
   ("green", ⟨⟨140, 60, 60⟩, ⟨140, 55, 40⟩, ⟨140, 60, 20⟩, "#74c992"⟩),
   ("teal", ⟨⟨180, 65, 60⟩, ⟨180, 60, 40⟩, ⟨180, 65, 20⟩, "#6bc4c4"⟩),
   ("blue", ⟨⟨220, 75, 65⟩, ⟨220, 70, 45⟩, ⟨220, 75, 25⟩, "#7c9de8"⟩),
   ("pink", ⟨⟨330, 80, 70⟩, ⟨330, 75, 50⟩, ⟨330, 80, 30⟩, "#e87cae"⟩)]

/-- Property names every plain JavaScript object inherits from
`Object.prototype`: bracket access on the `HUE_COLOR_MAP` object literal
with one of these keys returns the inherited function or object — a
truthy value — not `undefined`. -/
def objectProtoKeys : List String :=
  ["constructor", "hasOwnProperty", "isPrototypeOf", "propertyIsEnumerable",
   "toLocaleString", "toString", "valueOf", "__proto__",
   "__defineGetter__", "__defineSetter__", "__lookupGetter__",
   "__lookupSetter__"]

/-- Outcome of the JavaScript bracket access `HUE_COLOR_MAP[hue]`: an
own property of the object literal (one of the nine palettes), a truthy
value inherited from `Object.prototype`, or `undefined`. -/
inductive BracketHit where
  | own (p : AccentPalette)
  | inherited
  | missing
deriving DecidableEq

/-- `HUE_COLOR_MAP[hue]` with JavaScript property semantics: own keys
first, then the prototype chain, then `undefined`. -/
def hueBracketAccess (hue : String) : BracketHit :=
  match HUE_COLOR_MAP.lookup hue with
  | some p => .own p
  | none => if objectProtoKeys.contains hue then .inherited else .missing

/-- A thrown JavaScript exception. -/
inductive JsError where
  | TypeError
deriving DecidableEq

/-- Render an `hsl(h, s%, l%)` CSS color string. -/
def hslString (h s l : ℤ) : String :=
  "hsl(" ++ toString h ++ ", " ++ toString s ++ "%, " ++ toString l ++ "%)"

/-- `adjustForTheme` of accentTheme.ts: dark mode lightens and
desaturates, light mode darkens and saturates, with the source's
clamping constants. -/
def adjustForTheme (hsl : HslV) (isDark : Bool) : String :=
  if isDark then
    hslString hsl.h (max (hsl.s - 10) 40) (min (hsl.l + 15) 85)
  else
    hslString hsl.h (min (hsl.s + 5) 95) (max (hsl.l - 10) 20)

/-- `generateOverlay` of accentTheme.ts. -/
def generateOverlay (hsl : HslV) : String :=
  "hsla(" ++ toString hsl.h ++ ", " ++ toString hsl.s ++ "%, " ++
    toString hsl.l ++ "%, 0.33)"

/-- The CSS custom properties set by `updateAccentTheme`. -/
structure AccentVars where
  accentLight : String
  accentRegular : String
  accentDark : String
  accentOverlay : String
  gradientStop1 : String
  gradientStop2 : String
  gradientStop3 : String
  orangeStop1 : String
deriving DecidableEq

/-- The CSS custom property values `updateAccentTheme` derives from one
palette. -/
def accentVarsOf (colors : AccentPalette) (isDark : Bool) : AccentVars :=
  let accentLight := adjustForTheme colors.light isDark
  let accentRegular := adjustForTheme colors.regular isDark
  let accentDark := adjustForTheme colors.dark isDark
  let accentOverlay := generateOverlay colors.light
  { accentLight := accentLight
    accentRegular := accentRegular
    accentDark := accentDark
    accentOverlay := accentOverlay
    gradientStop1 := accentLight
    gradientStop2 := accentRegular
    gradientStop3 := accentDark
    orangeStop1 := colors.complementary }

/-- `updateAccentTheme` of accentTheme.ts as a function of the hue
string and the current dark-mode flag.  Its line
`HUE_COLOR_MAP[hue] || HUE_COLOR_MAP.purple` follows JavaScript bracket
semantics: an own key yields its palette; a key inherited from
`Object.prototype` (such as "constructor" or "toString") yields a truthy
non-palette value, so the fallback is skipped, `colors.light` is
`undefined`, and `adjustForTheme` throws a TypeError reading its fields;
only a hue for which the access yields `undefined` falls back to the
purple palette. -/
def updateAccentTheme (hue : String) (isDark : Bool) :
    Except JsError AccentVars :=
  match hueBracketAccess hue with
  | .own colors => .ok (accentVarsOf colors isDark)
  | .inherited => .error .TypeError
  | .missing => .ok (accentVarsOf purplePalette isDark)

/-- Helper: a hue that is neither an own key of the table nor a
prototype-chain property name yields exactly the purple theme. -/
theorem lookup_none_purple_theme (hue : String) (isDark : Bool)
    (hnone : HUE_COLOR_MAP.lookup hue = none)
    (hproto : objectProtoKeys.contains hue = false) :
    updateAccentTheme hue isDark = updateAccentTheme "purple" isDark := by
  unfold updateAccentTheme hueBracketAccess
  rw [hnone, hproto]
  rfl

/-- Helper: a hue that is not an own key but is a prototype-chain
property name makes `updateAccentTheme` throw a TypeError. -/
theorem lookup_proto_typeerror (hue : String) (isDark : Bool)
    (hnone : HUE_COLOR_MAP.lookup hue = none)
    (hproto : objectProtoKeys.contains hue = true) :
    updateAccentTheme hue isDark = .error .TypeError := by
  unfold updateAccentTheme hueBracketAccess
  rw [hnone, hproto]
  rfl

/-- C9 (counterexample): at the hue string "constructor" — not one of
the nine palette keys — `updateAccentTheme` neither applies the purple
palette nor returns at all: the bracket access hits the inherited
`Object.prototype` property, the truthy value skips the fallback, and
the call throws a TypeError reading the fields of `undefined`, so the
function is not total on hue strings and an unsupported hue can surface
an error. -/
theorem updateAccentTheme_constructor_typeerror :
    HUE_COLOR_MAP.lookup "constructor" = none
    ∧ updateAccentTheme "constructor" false = .error .TypeError :=
  ⟨by decide, rfl⟩

/-- C9 (amended): the palette table has exactly the nine keys purple,
gray, red, orange, yellow, green, teal, blue, pink (in source order);
for any hue string outside the table that is not an `Object.prototype`
property name, the purple palette is applied in its place, so such an
unsupported hue silently degrades to the default; but for a
prototype-chain property name (such as "constructor" or "toString") the
truthy inherited value skips the fallback and `updateAccentTheme`
throws a TypeError instead, so it is not total on all hue strings. -/
theorem updateAccentTheme_proto_aware_fallback :
    HUE_COLOR_MAP.map Prod.fst =
      ["purple", "gray", "red", "orange", "yellow", "green", "teal",
       "blue", "pink"]
    ∧ (∀ (hue : String) (isDark : Bool), HUE_COLOR_MAP.lookup hue = none →
        objectProtoKeys.contains hue = false →
        updateAccentTheme hue isDark = updateAccentTheme "purple" isDark)
    ∧ (∀ (hue : String) (isDark : Bool), HUE_COLOR_MAP.lookup hue = none →
        objectProtoKeys.contains hue = true →
        updateAccentTheme hue isDark = .error .TypeError) := by
  refine ⟨rfl, ?_, ?_⟩
  · intro hue isDark hnone hproto
    exact lookup_none_purple_theme hue isDark hnone hproto
  · intro hue isDark hnone hproto
    exact lookup_proto_typeerror hue isDark hnone hproto

/-- Witness for the amended C9 at the concrete hues "magenta" (plain
fallback) and "toString" (prototype-chain throw). -/
theorem updateAccentTheme_proto_aware_fallback_witness :
    (HUE_COLOR_MAP.lookup "magenta" = none
      ∧ objectProtoKeys.contains "magenta" = false
      ∧ HUE_COLOR_MAP.lookup "toString" = none
      ∧ objectProtoKeys.contains "toString" = true)
    ∧ updateAccentTheme "magenta" false = updateAccentTheme "purple" false
    ∧ updateAccentTheme "toString" false = .error .TypeError :=
  ⟨⟨by decide, by decide, by decide, by decide⟩,
   updateAccentTheme_proto_aware_fallback.2.1 "magenta" false
     (by decide) (by decide),
   updateAccentTheme_proto_aware_fallback.2.2 "toString" false
     (by decide) (by decide)⟩

/-! ## VisualParameters entry validation (spec §3, §7) -/

/-- Wire-shaped visual parameters before validation: the hue is still a
string. -/
structure RawVisual where
  hue : String
  normalizer : ℚ
  low : ℚ
  high : ℚ
  blur_sigma : ℚ
  vignette_strength : ℚ
  feather_strength : ℚ
  use_determinant : Bool
  use_max : Bool
deriving DecidableEq

/-- Modelled from the spec: the generation core validates
VisualParameters once at entry (spec §3, §7): a hue outside the
enumerated palette fails with `UnsupportedHue` (checked first), and
out-of-range numeric parameters fail with `InvalidParameter`; nothing is
clamped. -/
def validateVisualParams (rv : RawVisual) : Except SpecErr Visual :=
  match parseHue rv.hue with
  | none => .error .UnsupportedHue
  | some hue =>
    if rv.low ≤ rv.high ∧ 0 ≤ rv.blur_sigma ∧
        0 ≤ rv.vignette_strength ∧ rv.vignette_strength ≤ 1 ∧
        0 ≤ rv.feather_strength ∧ rv.feather_strength ≤ 1 then
      .ok ⟨hue, rv.normalizer, rv.low, rv.high, rv.blur_sigma,
           rv.vignette_strength, rv.feather_strength,
           rv.use_determinant, rv.use_max⟩
    else .error .SpecIntegrityError

/-- C7 (counterexample): the claim that an unsupported hue is always
rejected and never replaced by a fallback fails on the client code: at
hue "magenta" (not in the palette) the accent-theme path applies the
purple palette in its place instead of rejecting. -/
theorem unsupported_hue_falls_back_not_rejected :
    HUE_COLOR_MAP.lookup "magenta" = none
    ∧ updateAccentTheme "magenta" false = updateAccentTheme "purple" false :=
  ⟨by decide, rfl⟩

/-- C7 (amended): the generation core validates VisualParameters once at
entry and rejects a hue outside the enumerated palette synchronously
with `UnsupportedHue`; the client accent-theme path, by contrast, does
not reject an unsupported hue: for any hue missing from the palette
table that is not an `Object.prototype` property name it silently
substitutes the purple palette (for a prototype-chain name it throws a
TypeError instead — see the C9 correction — and in neither case does it
reject with `UnsupportedHue`). -/
theorem visual_validation_rejects_unsupported_hue
    (rv : RawVisual) (hue : String)
    (hrv : parseHue rv.hue = none)
    (hhue : HUE_COLOR_MAP.lookup hue = none)
    (hproto : objectProtoKeys.contains hue = false) :
    validateVisualParams rv = .error .UnsupportedHue
    ∧ ∀ isDark, updateAccentTheme hue isDark =
        updateAccentTheme "purple" isDark := by
  constructor
  · unfold validateVisualParams
    rw [hrv]
  · intro isDark
    exact lookup_none_purple_theme hue isDark hhue hproto

/-- A concrete raw visual with an unsupported hue for the witness. -/
def demoRawVisual : RawVisual :=
  { hue := "magenta"
    normalizer := 1 / 2
    low := 0
    high := 1
    blur_sigma := 3 / 2
    vignette_strength := 3 / 10
    feather_strength := 1 / 10
    use_determinant := true
    use_max := true }

/-- Witness for the amended C7 at hue "magenta". -/
theorem visual_validation_rejects_unsupported_hue_witness :
    (parseHue demoRawVisual.hue = none
      ∧ HUE_COLOR_MAP.lookup "magenta" = none
      ∧ objectProtoKeys.contains "magenta" = false)
    ∧ (validateVisualParams demoRawVisual = .error .UnsupportedHue
      ∧ ∀ isDark, updateAccentTheme "magenta" isDark =
          updateAccentTheme "purple" isDark) :=
  ⟨⟨by decide, by decide, by decide⟩,
   visual_validation_rejects_unsupported_hue demoRawVisual "magenta"
     (by decide) (by decide) (by decide)⟩

/-! ## Client generation flow (src/unnamed backgroundState.ts:
generateBackground / updateBackgroundImage) -/

/-- The client display surface state: the url currently shown as the
background image, the url of a completed replacement image still being
preloaded, and the in-flight-generation flag. -/
structure DisplayState where
  displayed : Option String
  pending : Option String
  isGenerating : Bool
deriving DecidableEq

/-- Events of the client generation flow, at the granularity of the
source control flow: a generation request arriving
(`generateBackground` entry), the request failing (its catch path), the
request completing with a complete image url
(`updateBackgroundImage(url)` starting the preload), and the preloaded
image finishing loading (the `img.onload` handler swapping the
background image). -/
inductive GenEvent where
  | requestStart
  | genFail
  | genSuccess (url : String)
  | imageLoaded
deriving DecidableEq

/-- One step of the client flow, following the source: a request while a
generation is in flight is skipped (the `isGenerating` guard); a failure
only clears the flag and touches nothing else (the catch path rethrows
without touching the DOM); a success hands a complete replacement url to
the preloader; the displayed image is swapped only when the preloaded
image has fully loaded, in a single assignment of the complete url. -/
def stepDisplay (s : DisplayState) (e : GenEvent) : DisplayState :=
  match e with
  | .requestStart =>
    if s.isGenerating then s else { s with isGenerating := true }
  | .genFail => { s with isGenerating := false }
  | .genSuccess url => { s with isGenerating := false, pending := some url }
  | .imageLoaded =>
    match s.pending with
    | some url => { s with displayed := some url, pending := none }
    | none => s

/-- Initial client state: nothing displayed, nothing pending, idle. -/
def initDisplay : DisplayState :=
  ⟨none, none, false⟩

/-- Run the client flow over an event trace. -/
def clientRun (evs : List GenEvent) : DisplayState :=
  evs.foldl stepDisplay initDisplay

/-- An optional url originates from a successful complete generation of
the trace. -/
def fromSuccess (evs : List GenEvent) (o : Option String) : Prop :=
  ∀ u, o = some u → GenEvent.genSuccess u ∈ evs

theorem clientRun_fromSuccess_aux (evs : List GenEvent) (s : DisplayState)
    (L : List GenEvent) (hsub : ∀ e ∈ evs, e ∈ L)
    (hd : fromSuccess L s.displayed) (hp : fromSuccess L s.pending) :
    fromSuccess L (evs.foldl stepDisplay s).displayed ∧
    fromSuccess L (evs.foldl stepDisplay s).pending := by
  induction evs generalizing s with
  | nil => exact ⟨hd, hp⟩
  | cons e evs ih =>
    refine ih (stepDisplay s e)
      (fun x hx => hsub x (List.mem_cons_of_mem e hx)) ?_ ?_
    · cases e with
      | requestStart =>
        by_cases hg : s.isGenerating <;> simp [stepDisplay, hg, hd]
      | genFail => exact hd
      | genSuccess url => exact hd
      | imageLoaded =>
        cases hsp : s.pending with
        | none => simp [stepDisplay, hsp, hd]
        | some url =>
          simp only [stepDisplay, hsp]
          intro u hu
          cases hu
          exact hp url hsp
    · cases e with
      | requestStart =>
        by_cases hg : s.isGenerating <;> simp [stepDisplay, hg, hp]
      | genFail => exact hp
      | genSuccess url =>
        intro u hu
        cases hu
        exact hsub (GenEvent.genSuccess url) (List.mem_cons_self _ _)
      | imageLoaded =>
        cases hsp : s.pending with
        | none =>
          simp only [stepDisplay, hsp]
          intro u hu
          cases hu
        | some url =>
          simp only [stepDisplay, hsp]
          intro u hu
          cases hu

/-- C8: The visible drawing surface never shows a half-drawn or failed
artifact.  (1) Whatever url the surface displays after any event trace
came from some successful generation event of that trace that produced a
complete replacement image — a failed or abandoned generation can never
become the displayed image.  (2) A failure step leaves the displayed
image exactly as it was.  (3) A request arriving while a generation is
in flight changes nothing at all (the in-flight guard), so no
overlapping render can partially overwrite the display.  (4) A load step
either leaves the display unchanged or swaps it in one assignment to the
complete pending replacement. -/
theorem client_flow_display_integrity :
    (∀ (evs : List GenEvent) (u : String),
      (clientRun evs).displayed = some u → GenEvent.genSuccess u ∈ evs)
    ∧ (∀ s : DisplayState, (stepDisplay s .genFail).displayed = s.displayed)
    ∧ (∀ s : DisplayState, s.isGenerating = true →
        stepDisplay s .requestStart = s)
    ∧ (∀ s : DisplayState, (stepDisplay s .imageLoaded).displayed = s.displayed
        ∨ ∃ u, s.pending = some u ∧
            (stepDisplay s .imageLoaded).displayed = some u) := by
  refine ⟨?_, ?_, ?_, ?_⟩
  · intro evs u hu
    exact (clientRun_fromSuccess_aux evs initDisplay evs (fun e he => he)
      (fun v hv => by cases hv) (fun v hv => by cases hv)).1 u hu
  · intro s
    rfl
  · intro s hg
    simp [stepDisplay, hg]
  · intro s
    cases hsp : s.pending with
    | none => exact Or.inl (by simp [stepDisplay, hsp])
    | some u => exact Or.inr ⟨u, rfl, by simp [stepDisplay, hsp]⟩

/-- A concrete trace and a concrete busy state for the witness. -/
def demoEvents : List GenEvent :=
  [.requestStart, .genSuccess "bg-complete", .imageLoaded]

/-- A concrete in-flight state for the witness. -/
def demoBusy : DisplayState :=
  ⟨some "old-bg", none, true⟩

/-- Witness for C8 at a concrete trace and a concrete in-flight state. -/
theorem client_flow_display_integrity_witness :
    GenEvent.genSuccess "bg-complete" ∈ demoEvents
    ∧ stepDisplay demoBusy .requestStart = demoBusy :=
  ⟨client_flow_display_integrity.1 demoEvents "bg-complete" rfl,
   client_flow_display_integrity.2.2.1 demoBusy rfl⟩

/-! ## Background cache cleanup (src/src/scripts/backgroundCache.ts)

The JavaScript string-keyed object holding the cache entries is embedded
as an insertion-ordered association list; `Object.assign(entries,
newEntries)` writes each updated key back into the base object in place
(appending keys not yet present), which is exactly `objectAssign` below.
JavaScript `Array.prototype.sort` with the descending-timestamp
comparator is embedded as a stable insertion sort by the corresponding
boolean order. -/

/-- Substring search on character lists (JavaScript `String.includes`). -/
def containsSub (l pat : List Char) : Bool :=
  match l with
  | [] => pat.isEmpty
  | _ :: rest => pat.isPrefixOf l || containsSub rest pat

/-- JavaScript `url.includes(pat)`. -/
def strIncludes (s pat : String) : Bool :=
  containsSub s.toList pat.toList

/-- JavaScript `url.startsWith(pat)`. -/
def strStartsWith (s pat : String) : Bool :=
  pat.toList.isPrefixOf s.toList

/-- Stable insertion sort by a boolean order (the embedding of the
comparator sort used on the cache entries). -/
def insertLe (le : α → α → Bool) (x : α) : List α → List α
  | [] => [x]
  | y :: ys => if le x y then x :: y :: ys else y :: insertLe le x ys

/-- Sort by a boolean order. -/
def sortLe (le : α → α → Bool) : List α → List α
  | [] => []
  | x :: xs => insertLe le x (sortLe le xs)

/-- One cache entry (the fields `cleanupCache` reads; the config payload
is irrelevant to cleanup and omitted). -/
structure CacheEntry where
  key : String
  backgroundUrl : String
  timestamp : ℤ
deriving DecidableEq

/-- The persisted background cache: entries as an insertion-ordered
string-keyed map, plus the last-cleanup timestamp. -/
structure BackgroundCache where
  entries : List (String × CacheEntry)
  lastCleanup : ℤ
deriving DecidableEq

/-- `MAX_CACHE_ENTRIES` of backgroundCache.ts ("Prevent unlimited
growth"). -/
def MAX_CACHE_ENTRIES : Nat := 50

/-- One day in milliseconds (the cleanup interval guard). -/
def ONE_DAY_MS : ℤ := 24 * 60 * 60 * 1000

/-- `ONE_WEEK` of `cleanupCache`. -/
def ONE_WEEK_MS : ℤ := 7 * 24 * 60 * 60 * 1000

/-- An entry url `cleanupCache` treats as invalid: a development url or
a blob url. -/
def isInvalidUrl (url : String) : Bool :=
  strIncludes url "localhost:5000" || strIncludes url "127.0.0.1:5000" ||
    strStartsWith url "blob:"

/-- Write one key into a string-keyed object: replace the value in place
when the key exists, append otherwise (JavaScript property
assignment). -/
def setKey (m : List (String × CacheEntry)) (k : String) (v : CacheEntry) :
    List (String × CacheEntry) :=
  if m.any fun p => p.1 == k then
    m.map fun p => if p.1 == k then (p.1, v) else p
  else m ++ [(k, v)]

/-- `Object.assign(base, updates)`: each property of `updates` is written
into `base`. -/
def objectAssign (base updates : List (String × CacheEntry)) :
    List (String × CacheEntry) :=
  updates.foldl (fun acc kv => setKey acc kv.1 kv.2) base

/-- `cleanupCache` of backgroundCache.ts, embedded line by line: skip
when the last cleanup is less than a day old; drop entries expired for
over a week or holding development/blob urls; sort the survivors by
descending timestamp; when still over `MAX_CACHE_ENTRIES`, build
`newEntries` from the first `MAX_CACHE_ENTRIES` survivors and
`Object.assign` them back into the survivor map; return the map with the
refreshed `lastCleanup`. -/
def cleanupCache (now : ℤ) (cache : BackgroundCache) : BackgroundCache :=
  if now - cache.lastCleanup < ONE_DAY_MS then cache
  else
    let entries := cache.entries.filter fun kv =>
      !(decide (now - kv.2.timestamp > ONE_WEEK_MS) ||
        isInvalidUrl kv.2.backgroundUrl)
    let sortedEntries :=
      sortLe (fun a b => decide (b.2.timestamp ≤ a.2.timestamp)) entries
    let entries2 :=
      if MAX_CACHE_ENTRIES < sortedEntries.length then
        objectAssign entries (sortedEntries.take MAX_CACHE_ENTRIES)
      else entries
    { entries := entries2, lastCleanup := now }

/-- A cache of 51 valid, same-day entries whose last cleanup lies a full
day in the past. -/
def demoCache : BackgroundCache :=
  { entries := (List.range 51).map fun i =>
      ("k" ++ toString i,
       ⟨"k" ++ toString i, "https://api.example.com/bg.png", 0⟩)
    lastCleanup := 0 }

set_option maxRecDepth 40000 in
/-- C10: evaluating `cleanupCache` on a 51-entry cache due for cleanup
returns all 51 entries — more than `MAX_CACHE_ENTRIES` — because
`Object.assign(entries, newEntries)` merges the 50 kept entries back
into the full survivor map instead of replacing it, so the over-limit
trim removes nothing and the cache can exceed its documented bound. -/
theorem cleanupCache_exceeds_limit :
    (cleanupCache ONE_DAY_MS demoCache).entries.length = 51
    ∧ MAX_CACHE_ENTRIES < (cleanupCache ONE_DAY_MS demoCache).entries.length := by
  exact ⟨by decide, by decide⟩
